import Mathlib

/-!
# Verification of the post-fs-data script supervisor (`core/scripting.cpp`)

Shallow embedding of the deadline-enforcing script driver:
`exec_common_scripts`, `exec_module_scripts` and the `PFS_SETUP` /
`PFS_WAIT` / `PFS_DONE` macros.

The program's observable behaviour is modelled as a trace of `Event`s
performed by the process that executes the script loop.  Operating-system
nondeterminism is supplied by oracles:

* `PfsEnv.fork1` — the result of the first `xfork()` in `PFS_SETUP` (the
  subtree-isolation fork).  A negative value is a failed fork; a
  non-negative value means the fork succeeded and the trace follows the
  subtree child (the parent only does `waitpid(pid); return`, contributing
  nothing observable beyond the subtree's own events).
* `PfsEnv.timer_fork` — the value assigned to `timer_pid` by the second
  `xfork()`: negative on failure, `0` means the modelled process is the
  timer child itself (which only sleeps and exits), positive is the timer
  process id as seen by the subtree.
* `PfsEnv.wq` — the successive results of the blocking `waitpid(-1, …)`
  calls issued by `PFS_WAIT`, indexed by the number of waits performed so
  far.

The filesystem is likewise an oracle: the directory listing is a list of
`dirent`s, `faccessat(dfd, name, X_OK, 0) == 0` is `x_ok name`, and
`access(path, F_OK) == 0` is `has_file path`.
-/

/-- The fork modes of `exec_t` (from the process-launch utilities, outside
this translation unit): `xfork` is a plain logged fork, `fork_no_orphan`
forks a child that dies with its parent, `fork_dont_care` double-forks so
the child needs no wait. -/
inductive ForkPolicy
  | xfork
  | fork_no_orphan
  | fork_dont_care
deriving DecidableEq, Repr

/-- The launch configuration `exec_t`.  The `pre_exec = set_script_env`
hook (environment-variable injection) is common to every launch in this
file and irrelevant to the claims, so it is not modelled. -/
structure exec_t where
  fork : ForkPolicy
deriving DecidableEq, Repr

/-- Observable actions of the process driving one stage invocation. -/
inductive Event
  /-- the first `xfork()` in `PFS_SETUP` (subtree isolation), with its result -/
  | forkSubtree (pid : Int)
  /-- the second `xfork()` in `PFS_SETUP` (the timer process), with its result -/
  | forkTimer (pid : Int)
  /-- `exec_command(exec, BBEXEC_CMD, path)` -/
  | launch (path : String) (fork : ForkPolicy)
  /-- a blocking `waitpid(-1, nullptr, 0)` in `PFS_WAIT`, with the reaped pid -/
  | wait (reaped : Int)
  /-- `LOGW("* post-fs-data scripts blocking phase timeout\n")` -/
  | warnTimeout
  /-- `kill(timer_pid, SIGKILL)` in `PFS_DONE` -/
  | killTimer (pid : Int)
  /-- `exit(0)` in `PFS_DONE`: the subtree finishes -/
  | exitSubtree
deriving DecidableEq, Repr

/-- `exec_command` dispatches a launch under the policy of its `exec_t`;
for the trace model the launch itself is the observable event. -/
def exec_command (exec : exec_t) (path : String) : Event :=
  Event.launch path exec.fork

/-- A `struct dirent` as consumed by the loop: name and `d_type`. -/
structure dirent where
  d_name : String
  d_type : Nat
deriving DecidableEq, Repr

/-- `DT_REG` from `<dirent.h>`. -/
def DT_REG : Nat := 8

/-- `struct timespec`. -/
structure timespec where
  tv_sec : Int
  tv_nsec : Int
deriving DecidableEq, Repr

/-- `static bool operator>(const timespec &a, const timespec &b)`
(scripting.cpp lines 113–117). -/
def timespec_gt (a b : timespec) : Bool :=
  if a.tv_sec != b.tv_sec then decide (a.tv_sec > b.tv_sec)
  else decide (a.tv_nsec > b.tv_nsec)

/-- `POST_FS_DATA_SCRIPT_MAX_TIME`, the fixed budget macro from a header
outside this translation unit (the spec's `fixed_budget`); its exact value
never matters to the claims. -/
def POST_FS_DATA_SCRIPT_MAX_TIME : Int := 35

/-- `SECURE_DIR` from the headers: root of the stage `.d` directories. -/
def SECURE_DIR : String := "/data/adb"

/-- `MODULEROOT` from the headers. -/
def MODULEROOT : String := "/data/adb/modules"

/-- The path handed to `exec_command` by `exec_common_scripts`:
`SECURE_DIR "/%s.d"` with `'/' + entry->d_name` appended. -/
def scriptPath (stage name : String) : String :=
  SECURE_DIR ++ "/" ++ stage ++ ".d/" ++ name

/-- The path built by `exec_module_scripts`:
`sprintf(path, MODULEROOT "/%s/%s.sh", module, stage)`. -/
def module_path (m stage : String) : String :=
  MODULEROOT ++ "/" ++ m ++ "/" ++ stage ++ ".sh"

/-- The zero-initialized value of the file-scope `static timespec
pfs_timeout;` (scripting.cpp line 40). -/
def pfs_timeout0 : timespec := { tv_sec := 0, tv_nsec := 0 }

/-- Oracle for the operating-system nondeterminism of one invocation. -/
structure PfsEnv where
  fork1 : Int
  timer_fork : Int
  wq : Nat → Int

/-- Where control goes after `PFS_SETUP()`. -/
inductive SetupResult
  /-- the function returns to its caller here: the parent of the first
  fork (after waiting for the subtree), or the failed-fork path -/
  | ret
  /-- the modelled process is the timer child: it sleeps until the
  deadline and exits, performing no observable launch or wait -/
  | timerProc
  /-- execution continues into the script loop with this `timer_pid` -/
  | go (timer_pid : Int)
deriving DecidableEq, Repr

/-- `PFS_SETUP()` (scripting.cpp lines 42–57).  `timer_pid` is the value
the surrounding function initialized the variable with (`-1`); when `pfs`
is false the macro body is skipped and that value is kept.  When `pfs`
holds: a failed first fork returns from the function; a successful one
confines the rest in the subtree child (the parent just
`waitpid`s and returns, so the call's observable trace is the child's),
which then forks the timer process. -/
def PFS_SETUP (pfs : Bool) (timer_pid : Int) (env : PfsEnv) : SetupResult × List Event :=
  if pfs then
    if env.fork1 < 0 then
      (SetupResult.ret, [Event.forkSubtree env.fork1])
    else if env.timer_fork = 0 then
      (SetupResult.timerProc, [Event.forkSubtree env.fork1, Event.forkTimer env.timer_fork])
    else
      (SetupResult.go env.timer_fork, [Event.forkSubtree env.fork1, Event.forkTimer env.timer_fork])
  else (SetupResult.go timer_pid, [])

/-- `PFS_WAIT()` (scripting.cpp lines 59–68), one execution of the macro:
given the current `timer_pid` and the number of waits performed so far,
returns the new `timer_pid`, the new wait count, and the emitted events.
If `timer_pid < 0` (already timed out or timer fork failed) it does not
block; otherwise it blocks in `waitpid(-1, …)` and, when the reaped pid is
the timer's, logs the timeout warning and sets `timer_pid = -1`. -/
def PFS_WAIT (pfs : Bool) (wq : Nat → Int) (timer_pid : Int) (nw : Nat) :
    Int × Nat × List Event :=
  if pfs then
    if timer_pid < 0 then
      (timer_pid, nw, [])
    else
      let pid := wq nw
      if pid = timer_pid then
        (-1, nw + 1, [Event.wait pid, Event.warnTimeout])
      else
        (timer_pid, nw + 1, [Event.wait pid])
  else (timer_pid, nw, [])

/-- `PFS_DONE()` (scripting.cpp lines 70–75): in pfs mode, kill the timer
if it is still alive, then the subtree exits. -/
def PFS_DONE (pfs : Bool) (timer_pid : Int) : List Event :=
  if pfs then
    (if timer_pid > 0 then [Event.killTimer timer_pid] else []) ++ [Event.exitSubtree]
  else []

/-- The `for (dirent *entry; …)` loop of `exec_common_scripts`
(scripting.cpp lines 95–108): entries that are not `DT_REG`, and `DT_REG`
entries failing `faccessat(dfd, name, X_OK, 0)`, are skipped; each kept
entry is launched with `.fork = pfs ? xfork : fork_dont_care` and then
`PFS_WAIT()` runs.  Returns the final `timer_pid`, the wait count, and
the emitted events. -/
def common_loop (pfs : Bool) (stage : String) (x_ok : String → Bool) (wq : Nat → Int) :
    List dirent → Int → Nat → Int × Nat × List Event
  | [], tp, nw => (tp, nw, [])
  | e :: rest, tp, nw =>
    if e.d_type == DT_REG && x_ok e.d_name then
      let w := PFS_WAIT pfs wq tp nw
      let r := common_loop pfs stage x_ok wq rest w.1 w.2.1
      (r.1, r.2.1,
        exec_command { fork := if pfs then ForkPolicy.xfork else ForkPolicy.fork_dont_care }
            (scriptPath stage e.d_name)
          :: (w.2.2 ++ r.2.2))
    else
      common_loop pfs stage x_ok wq rest tp nw

/-- The `for (auto &m : modules)` loop of `exec_module_scripts`
(scripting.cpp lines 136–148): a module whose `<MODULEROOT>/<m>/<stage>.sh`
fails `access(path, F_OK)` is skipped; each present script is launched
with `.fork = pfs ? xfork : fork_dont_care` and then `PFS_WAIT()` runs. -/
def module_loop (pfs : Bool) (stage : String) (has_file : String → Bool) (wq : Nat → Int) :
    List String → Int → Nat → Int × Nat × List Event
  | [], tp, nw => (tp, nw, [])
  | m :: rest, tp, nw =>
    if has_file (module_path m stage) then
      let w := PFS_WAIT pfs wq tp nw
      let r := module_loop pfs stage has_file wq rest w.1 w.2.1
      (r.1, r.2.1,
        exec_command { fork := if pfs then ForkPolicy.xfork else ForkPolicy.fork_dont_care }
            (module_path m stage)
          :: (w.2.2 ++ r.2.2))
    else
      module_loop pfs stage has_file wq rest tp nw

/-- Result of `exec_common_scripts`: the event trace and the value of the
file-scope `static timespec pfs_timeout` after the call. -/
structure CommonResult where
  events : List Event
  pfs_timeout : timespec
deriving DecidableEq, Repr

/-- `exec_common_scripts` (scripting.cpp lines 77–111).  `dir` is the
result of `xopen_dir` (`none` when the stage directory cannot be opened),
`x_ok` the `faccessat … X_OK` oracle, `now` the `clock_gettime(CLOCK_MONOTONIC)`
sample taken at stage entry, and `pt` the value of the static
`pfs_timeout` on entry.  For the `post-fs-data` stage the deadline
`now + POST_FS_DATA_SCRIPT_MAX_TIME` is stored into `pfs_timeout` and the
`PFS_SETUP`/`PFS_WAIT`/`PFS_DONE` protocol runs; note that the missing-dir
early return precedes the deadline computation. -/
def exec_common_scripts (stage : String) (dir : Option (List dirent))
    (x_ok : String → Bool) (now : timespec) (env : PfsEnv)
    (pt : timespec) : CommonResult :=
  match dir with
  | none => { events := [], pfs_timeout := pt }
  | some entries =>
    let pfs : Bool := stage == "post-fs-data"
    let pt : timespec :=
      if pfs then { tv_sec := now.tv_sec + POST_FS_DATA_SCRIPT_MAX_TIME, tv_nsec := now.tv_nsec }
      else pt
    let s := PFS_SETUP pfs (-1) env
    match s.1 with
    | SetupResult.go tp =>
      let r := common_loop pfs stage x_ok env.wq entries tp 0
      { events := s.2 ++ r.2.2 ++ PFS_DONE pfs r.1, pfs_timeout := pt }
    | _ => { events := s.2, pfs_timeout := pt }

/-- The `pfs` flag as recomputed at the head of `exec_module_scripts`
(scripting.cpp lines 124–131): for the `post-fs-data` stage, if the fresh
monotonic timestamp is past the stored deadline the phase is downgraded to
non-pfs mode ("treat it as service mode"). -/
def module_pfs (stage : String) (now pt : timespec) : Bool :=
  if stage == "post-fs-data" then !(timespec_gt now pt) else stage == "post-fs-data"

/-- `exec_module_scripts` (scripting.cpp lines 119–151).  `has_file` is
the `access(path, F_OK)` oracle, `now` the fresh
`clock_gettime(CLOCK_MONOTONIC)` sample, and `pt` the value of the static
`pfs_timeout` (the deadline stored by the directory phase, or its
zero-initialized value if that phase never stored one). -/
def exec_module_scripts (stage : String) (modules : List String)
    (has_file : String → Bool) (now : timespec) (env : PfsEnv)
    (pt : timespec) : List Event :=
  if modules.isEmpty then []
  else
    let pfs : Bool := module_pfs stage now pt
    let s := PFS_SETUP pfs (-1) env
    match s.1 with
    | SetupResult.go tp =>
      let r := module_loop pfs stage has_file env.wq modules tp 0
      s.2 ++ r.2.2 ++ PFS_DONE pfs r.1
    | _ => s.2

/-! ## Trace observers -/

/-- Is this event the timeout warning? -/
def isWarn : Event → Bool
  | Event.warnTimeout => true
  | _ => false

/-- Is this event a blocking `waitpid(-1, …)` call? -/
def isWait : Event → Bool
  | Event.wait _ => true
  | _ => false

/-- Number of timeout warnings in a trace. -/
def countWarn (evs : List Event) : Nat := (evs.filter isWarn).length

/-- Does the trace contain a blocking wait? -/
def hasWait (evs : List Event) : Bool := evs.any isWait

/-- Is this event a fork performed by `PFS_SETUP` (subtree isolation fork
or timer fork)? -/
def isForkEv : Event → Bool
  | Event.forkSubtree _ => true
  | Event.forkTimer _ => true
  | _ => false

/-- Does the trace contain a fork performed by `PFS_SETUP`? -/
def hasForkEv (evs : List Event) : Bool := evs.any isForkEv

/-- The part of the trace strictly after the first timeout warning
(empty when the timer was never reaped). -/
def afterTimeout : List Event → List Event
  | [] => []
  | e :: r => if isWarn e then r else afterTimeout r

/-- The launched script paths of a trace, in order. -/
def launchedPaths : List Event → List String
  | [] => []
  | Event.launch p _ :: r => p :: launchedPaths r
  | _ :: r => launchedPaths r

/-- The fork policies of the launches of a trace, in order. -/
def launchPolicies : List Event → List ForkPolicy
  | [] => []
  | Event.launch _ f :: r => f :: launchPolicies r
  | _ :: r => launchPolicies r

/-- Every launch in the trace uses policy `p`. -/
def allLaunches (p : ForkPolicy) (evs : List Event) : Bool :=
  (launchPolicies evs).all fun q => q = p

/-! ## Basic observer lemmas -/

theorem countWarn_nil : countWarn [] = 0 := rfl

theorem countWarn_cons (e : Event) (a : List Event) :
    countWarn (e :: a) = (if isWarn e then 1 else 0) + countWarn a := by
  cases hw : isWarn e <;> simp [countWarn, List.filter_cons, hw, Nat.add_comm]

theorem countWarn_append (a b : List Event) :
    countWarn (a ++ b) = countWarn a + countWarn b := by
  simp [countWarn, List.filter_append]

theorem hasWait_nil : hasWait [] = false := rfl

theorem hasWait_cons (e : Event) (a : List Event) :
    hasWait (e :: a) = (isWait e || hasWait a) := by
  simp [hasWait]

theorem hasWait_append (a b : List Event) :
    hasWait (a ++ b) = (hasWait a || hasWait b) := by
  simp [hasWait]

theorem launchedPaths_append (a b : List Event) :
    launchedPaths (a ++ b) = launchedPaths a ++ launchedPaths b := by
  induction a with
  | nil => rfl
  | cons e r ih => cases e <;> simp [launchedPaths, ih]

theorem launchPolicies_append (a b : List Event) :
    launchPolicies (a ++ b) = launchPolicies a ++ launchPolicies b := by
  induction a with
  | nil => rfl
  | cons e r ih => cases e <;> simp [launchPolicies, ih]

theorem allLaunches_append (p : ForkPolicy) (a b : List Event) :
    allLaunches p (a ++ b) = (allLaunches p a && allLaunches p b) := by
  simp [allLaunches, launchPolicies_append]

theorem afterTimeout_of_no_warn (a : List Event) (h : countWarn a = 0) :
    afterTimeout a = [] := by
  induction a with
  | nil => rfl
  | cons e r ih =>
    rw [countWarn_cons] at h
    cases hw : isWarn e with
    | false => simpa [afterTimeout, hw] using ih (by simpa [hw] using h)
    | true => simp [hw] at h

theorem afterTimeout_append_of_no_warn (a b : List Event) (h : countWarn a = 0) :
    afterTimeout (a ++ b) = afterTimeout b := by
  induction a with
  | nil => rfl
  | cons e r ih =>
    rw [countWarn_cons] at h
    cases hw : isWarn e with
    | false => simpa [afterTimeout, hw] using ih (by simpa [hw] using h)
    | true => simp [hw] at h

theorem afterTimeout_append_of_warn (a b : List Event) (h : countWarn a ≠ 0) :
    afterTimeout (a ++ b) = afterTimeout a ++ b := by
  induction a with
  | nil => simp [countWarn_nil] at h
  | cons e r ih =>
    rw [countWarn_cons] at h
    cases hw : isWarn e with
    | false => simpa [afterTimeout, hw] using ih (by simpa [hw] using h)
    | true => simp [afterTimeout, hw]

/-- Traces consisting only of launch events have no warning, no wait, the
obvious launch list, and a constant policy list. -/
theorem launch_map_countWarn {α : Type} (g : α → String) (p : ForkPolicy) (M : List α) :
    countWarn (M.map fun x => Event.launch (g x) p) = 0 := by
  induction M with
  | nil => rfl
  | cons x r ih => simpa [countWarn_cons, isWarn] using ih

theorem launch_map_hasWait {α : Type} (g : α → String) (p : ForkPolicy) (M : List α) :
    hasWait (M.map fun x => Event.launch (g x) p) = false := by
  induction M with
  | nil => rfl
  | cons x r ih => simpa [hasWait_cons, isWait] using ih

theorem launch_map_launchedPaths {α : Type} (g : α → String) (p : ForkPolicy) (M : List α) :
    launchedPaths (M.map fun x => Event.launch (g x) p) = M.map g := by
  induction M with
  | nil => rfl
  | cons x r ih => simpa [launchedPaths] using ih

theorem launch_map_launchPolicies {α : Type} (g : α → String) (p : ForkPolicy) (M : List α) :
    launchPolicies (M.map fun x => Event.launch (g x) p) = M.map fun _ => p := by
  induction M with
  | nil => rfl
  | cons x r ih => simpa [launchPolicies] using ih

theorem launch_map_allLaunches {α : Type} (g : α → String) (p : ForkPolicy) (M : List α) :
    allLaunches p (M.map fun x => Event.launch (g x) p) = true := by
  simp [allLaunches, launch_map_launchPolicies]

/-! ## `PFS_WAIT` lemmas -/

/-- When not in pfs mode, or already expired, `PFS_WAIT` does nothing. -/
theorem PFS_WAIT_no_block (pfs : Bool) (wq : Nat → Int) (tp : Int) (nw : Nat)
    (h : pfs = false ∨ tp < 0) :
    PFS_WAIT pfs wq tp nw = (tp, nw, []) := by
  rcases h with h | h
  · simp [PFS_WAIT, h]
  · cases pfs <;> simp [PFS_WAIT, h]

/-- `PFS_WAIT` never emits a launch. -/
theorem PFS_WAIT_launchedPaths (pfs : Bool) (wq : Nat → Int) (tp : Int) (nw : Nat) :
    launchedPaths (PFS_WAIT pfs wq tp nw).2.2 = [] := by
  by_cases hp : pfs = true
  · by_cases ht : tp < 0
    · simp [PFS_WAIT, hp, ht, launchedPaths]
    · by_cases he : wq nw = tp <;> simp [PFS_WAIT, hp, ht, he, launchedPaths]
  · rw [Bool.not_eq_true] at hp
    simp [PFS_WAIT, hp, launchedPaths]

theorem PFS_WAIT_launchPolicies (pfs : Bool) (wq : Nat → Int) (tp : Int) (nw : Nat) :
    launchPolicies (PFS_WAIT pfs wq tp nw).2.2 = [] := by
  by_cases hp : pfs = true
  · by_cases ht : tp < 0
    · simp [PFS_WAIT, hp, ht, launchPolicies]
    · by_cases he : wq nw = tp <;> simp [PFS_WAIT, hp, ht, he, launchPolicies]
  · rw [Bool.not_eq_true] at hp
    simp [PFS_WAIT, hp, launchPolicies]

/-- The timer pid after `PFS_WAIT` is either unchanged or the expired
sentinel `-1`. -/
theorem PFS_WAIT_tp (pfs : Bool) (wq : Nat → Int) (tp : Int) (nw : Nat) :
    (PFS_WAIT pfs wq tp nw).1 = tp ∨ (PFS_WAIT pfs wq tp nw).1 = -1 := by
  by_cases hp : pfs = true
  · by_cases ht : tp < 0
    · simp [PFS_WAIT, hp, ht]
    · by_cases he : wq nw = tp <;> simp [PFS_WAIT, hp, ht, he]
  · rw [Bool.not_eq_true] at hp
    simp [PFS_WAIT, hp]

/-- If `PFS_WAIT` did not warn, the timer pid is unchanged. -/
theorem PFS_WAIT_tp_of_no_warn (pfs : Bool) (wq : Nat → Int) (tp : Int) (nw : Nat)
    (h : countWarn (PFS_WAIT pfs wq tp nw).2.2 = 0) :
    (PFS_WAIT pfs wq tp nw).1 = tp := by
  by_cases hp : pfs = true
  · by_cases ht : tp < 0
    · simp [PFS_WAIT, hp, ht]
    · by_cases he : wq nw = tp
      · simp [PFS_WAIT, hp, ht, he, countWarn_cons, countWarn_nil, isWarn] at h
      · simp [PFS_WAIT, hp, ht, he]
  · rw [Bool.not_eq_true] at hp
    simp [PFS_WAIT, hp]

/-! ## `common_loop` lemmas -/

/-- Unfolding of one selected iteration (regular, executable entry). -/
theorem common_loop_cons_sel (pfs : Bool) (stage : String) (x_ok : String → Bool)
    (wq : Nat → Int) (e : dirent) (rest : List dirent) (tp : Int) (nw : Nat)
    (hc : (e.d_type == DT_REG && x_ok e.d_name) = true) :
    common_loop pfs stage x_ok wq (e :: rest) tp nw
      = ((common_loop pfs stage x_ok wq rest (PFS_WAIT pfs wq tp nw).1
            (PFS_WAIT pfs wq tp nw).2.1).1,
         (common_loop pfs stage x_ok wq rest (PFS_WAIT pfs wq tp nw).1
            (PFS_WAIT pfs wq tp nw).2.1).2.1,
         Event.launch (scriptPath stage e.d_name)
             (if pfs then ForkPolicy.xfork else ForkPolicy.fork_dont_care)
           :: ((PFS_WAIT pfs wq tp nw).2.2
               ++ (common_loop pfs stage x_ok wq rest (PFS_WAIT pfs wq tp nw).1
                     (PFS_WAIT pfs wq tp nw).2.1).2.2)) := by
  simp [common_loop, hc, exec_command]

/-- Unfolding of one skipped iteration. -/
theorem common_loop_cons_skip (pfs : Bool) (stage : String) (x_ok : String → Bool)
    (wq : Nat → Int) (e : dirent) (rest : List dirent) (tp : Int) (nw : Nat)
    (hc : ¬ (e.d_type == DT_REG && x_ok e.d_name) = true) :
    common_loop pfs stage x_ok wq (e :: rest) tp nw
      = common_loop pfs stage x_ok wq rest tp nw := by
  simp [common_loop, hc]

/-- In non-pfs mode, or once expired, the loop never blocks: it just
launches every selected entry in listing order, under the policy chosen
by `pfs`. -/
theorem common_loop_no_block (pfs : Bool) (stage : String) (x_ok : String → Bool)
    (wq : Nat → Int) (l : List dirent) (tp : Int) (nw : Nat)
    (h : pfs = false ∨ tp < 0) :
    common_loop pfs stage x_ok wq l tp nw
      = (tp, nw, (l.filter fun e => e.d_type == DT_REG && x_ok e.d_name).map
          fun e => Event.launch (scriptPath stage e.d_name)
            (if pfs then ForkPolicy.xfork else ForkPolicy.fork_dont_care)) := by
  induction l with
  | nil => simp [common_loop]
  | cons e rest ih =>
    by_cases hc : (e.d_type == DT_REG && x_ok e.d_name) = true
    · rw [common_loop_cons_sel pfs stage x_ok wq e rest tp nw hc,
          PFS_WAIT_no_block pfs wq tp nw h]
      simp [ih, List.filter_cons, hc]
    · rw [common_loop_cons_skip pfs stage x_ok wq e rest tp nw hc]
      simp [ih, List.filter_cons, hc]

/-- The loop launches exactly the regular executable entries, in listing
order. -/
theorem common_loop_launchedPaths (pfs : Bool) (stage : String) (x_ok : String → Bool)
    (wq : Nat → Int) (l : List dirent) : ∀ tp nw,
    launchedPaths (common_loop pfs stage x_ok wq l tp nw).2.2
      = (l.filter fun e => e.d_type == DT_REG && x_ok e.d_name).map
          fun e => scriptPath stage e.d_name := by
  induction l with
  | nil => intro tp nw; simp [common_loop, launchedPaths]
  | cons e rest ih =>
    intro tp nw
    by_cases hc : (e.d_type == DT_REG && x_ok e.d_name) = true
    · rw [common_loop_cons_sel pfs stage x_ok wq e rest tp nw hc]
      simp [launchedPaths, launchedPaths_append, PFS_WAIT_launchedPaths, ih,
            List.filter_cons, hc]
    · rw [common_loop_cons_skip pfs stage x_ok wq e rest tp nw hc]
      simp [ih, List.filter_cons, hc]

/-- Every launch of the loop uses the policy selected by `pfs`. -/
theorem common_loop_launchPolicies (pfs : Bool) (stage : String) (x_ok : String → Bool)
    (wq : Nat → Int) (l : List dirent) : ∀ tp nw,
    launchPolicies (common_loop pfs stage x_ok wq l tp nw).2.2
      = (l.filter fun e => e.d_type == DT_REG && x_ok e.d_name).map
          fun _ => if pfs then ForkPolicy.xfork else ForkPolicy.fork_dont_care := by
  induction l with
  | nil => intro tp nw; simp [common_loop, launchPolicies]
  | cons e rest ih =>
    intro tp nw
    by_cases hc : (e.d_type == DT_REG && x_ok e.d_name) = true
    · rw [common_loop_cons_sel pfs stage x_ok wq e rest tp nw hc]
      simp [launchPolicies, launchPolicies_append, PFS_WAIT_launchPolicies, ih,
            List.filter_cons, hc]
    · rw [common_loop_cons_skip pfs stage x_ok wq e rest tp nw hc]
      simp [ih, List.filter_cons, hc]

theorem common_loop_allLaunches (pfs : Bool) (stage : String) (x_ok : String → Bool)
    (wq : Nat → Int) (l : List dirent) (tp : Int) (nw : Nat) :
    allLaunches (if pfs then ForkPolicy.xfork else ForkPolicy.fork_dont_care)
      (common_loop pfs stage x_ok wq l tp nw).2.2 = true := by
  simp [allLaunches, common_loop_launchPolicies]

/-- The timer pid is only ever kept or set to the expired sentinel. -/
theorem common_loop_tp (pfs : Bool) (stage : String) (x_ok : String → Bool)
    (wq : Nat → Int) (l : List dirent) : ∀ tp nw,
    (common_loop pfs stage x_ok wq l tp nw).1 = tp
    ∨ (common_loop pfs stage x_ok wq l tp nw).1 = -1 := by
  induction l with
  | nil => intro tp nw; left; simp [common_loop]
  | cons e rest ih =>
    intro tp nw
    by_cases hc : (e.d_type == DT_REG && x_ok e.d_name) = true
    · rw [common_loop_cons_sel pfs stage x_ok wq e rest tp nw hc]
      rcases ih (PFS_WAIT pfs wq tp nw).1 (PFS_WAIT pfs wq tp nw).2.1 with hr | hr
      · rcases PFS_WAIT_tp pfs wq tp nw with hw | hw
        · left; rw [hr, hw]
        · right; rw [hr, hw]
      · right; rw [hr]
    · rw [common_loop_cons_skip pfs stage x_ok wq e rest tp nw hc]
      exact ih tp nw

/-- If the loop never warned, the timer pid is unchanged. -/
theorem common_loop_tp_of_no_warn (pfs : Bool) (stage : String) (x_ok : String → Bool)
    (wq : Nat → Int) (l : List dirent) : ∀ tp nw,
    countWarn (common_loop pfs stage x_ok wq l tp nw).2.2 = 0 →
    (common_loop pfs stage x_ok wq l tp nw).1 = tp := by
  induction l with
  | nil => intro tp nw _; simp [common_loop]
  | cons e rest ih =>
    intro tp nw h
    by_cases hc : (e.d_type == DT_REG && x_ok e.d_name) = true
    · rw [common_loop_cons_sel pfs stage x_ok wq e rest tp nw hc] at h ⊢
      simp only [countWarn_cons, countWarn_append, isWarn] at h
      have hw0 : countWarn (PFS_WAIT pfs wq tp nw).2.2 = 0 := by omega
      have hr0 : countWarn (common_loop pfs stage x_ok wq rest (PFS_WAIT pfs wq tp nw).1
          (PFS_WAIT pfs wq tp nw).2.1).2.2 = 0 := by omega
      have hr := ih (PFS_WAIT pfs wq tp nw).1 (PFS_WAIT pfs wq tp nw).2.1 hr0
      rw [hr]
      exact PFS_WAIT_tp_of_no_warn pfs wq tp nw hw0
    · rw [common_loop_cons_skip pfs stage x_ok wq e rest tp nw hc] at h ⊢
      exact ih tp nw h

/-- The supervisor warns at most once, and after the warning no blocking
wait is ever performed again. -/
theorem common_loop_warn_wait (pfs : Bool) (stage : String) (x_ok : String → Bool)
    (wq : Nat → Int) (l : List dirent) : ∀ tp nw,
    countWarn (common_loop pfs stage x_ok wq l tp nw).2.2 ≤ 1
    ∧ hasWait (afterTimeout (common_loop pfs stage x_ok wq l tp nw).2.2) = false := by
  induction l with
  | nil =>
    intro tp nw
    constructor <;> simp [common_loop, countWarn_nil, afterTimeout, hasWait]
  | cons e rest ih =>
    intro tp nw
    by_cases hc : (e.d_type == DT_REG && x_ok e.d_name) = true
    case neg =>
      rw [common_loop_cons_skip pfs stage x_ok wq e rest tp nw hc]
      exact ih tp nw
    case pos =>
      have noblock : pfs = false ∨ tp < 0 →
          countWarn (common_loop pfs stage x_ok wq (e :: rest) tp nw).2.2 ≤ 1
          ∧ hasWait
              (afterTimeout (common_loop pfs stage x_ok wq (e :: rest) tp nw).2.2)
            = false := by
        intro hnb
        rw [common_loop_no_block pfs stage x_ok wq (e :: rest) tp nw hnb]
        refine ⟨by simp [launch_map_countWarn], ?_⟩
        rw [afterTimeout_of_no_warn _ (launch_map_countWarn _ _ _)]
        simp [hasWait]
      by_cases hp : pfs = true
      case neg =>
        exact noblock (Or.inl (by simpa using hp))
      case pos =>
      by_cases ht : tp < 0
      case pos =>
        exact noblock (Or.inr ht)
      case neg =>
        rw [common_loop_cons_sel pfs stage x_ok wq e rest tp nw hc]
        by_cases he : wq nw = tp
        · have hw : PFS_WAIT pfs wq tp nw
              = (-1, nw + 1, [Event.wait (wq nw), Event.warnTimeout]) := by
            simp [PFS_WAIT, hp, ht, he]
          rw [hw]
          rw [common_loop_no_block pfs stage x_ok wq rest (-1) (nw + 1)
                (Or.inr (by norm_num))]
          constructor
          · simp [countWarn_cons, countWarn_append, isWarn, launch_map_countWarn,
                  countWarn_nil]
          · simp only [List.cons_append, List.nil_append, afterTimeout, isWarn,
                       Bool.false_eq_true, if_false, if_true, ite_false, ite_true]
            exact launch_map_hasWait _ _ _
        · have hw : PFS_WAIT pfs wq tp nw = (tp, nw + 1, [Event.wait (wq nw)]) := by
            simp [PFS_WAIT, hp, ht, he]
          rw [hw]
          obtain ⟨ih1, ih2⟩ := ih tp (nw + 1)
          constructor
          · simpa [countWarn_cons, countWarn_append, isWarn, countWarn_nil] using ih1
          · simpa [afterTimeout, isWarn] using ih2

/-! ## `module_loop` lemmas -/

/-- Unfolding of one iteration whose script file exists. -/
theorem module_loop_cons_sel (pfs : Bool) (stage : String) (has_file : String → Bool)
    (wq : Nat → Int) (m : String) (rest : List String) (tp : Int) (nw : Nat)
    (hc : has_file (module_path m stage) = true) :
    module_loop pfs stage has_file wq (m :: rest) tp nw
      = ((module_loop pfs stage has_file wq rest (PFS_WAIT pfs wq tp nw).1
            (PFS_WAIT pfs wq tp nw).2.1).1,
         (module_loop pfs stage has_file wq rest (PFS_WAIT pfs wq tp nw).1
            (PFS_WAIT pfs wq tp nw).2.1).2.1,
         Event.launch (module_path m stage)
             (if pfs then ForkPolicy.xfork else ForkPolicy.fork_dont_care)
           :: ((PFS_WAIT pfs wq tp nw).2.2
               ++ (module_loop pfs stage has_file wq rest (PFS_WAIT pfs wq tp nw).1
                     (PFS_WAIT pfs wq tp nw).2.1).2.2)) := by
  simp [module_loop, hc, exec_command]

/-- Unfolding of one iteration whose script file is absent. -/
theorem module_loop_cons_skip (pfs : Bool) (stage : String) (has_file : String → Bool)
    (wq : Nat → Int) (m : String) (rest : List String) (tp : Int) (nw : Nat)
    (hc : ¬ has_file (module_path m stage) = true) :
    module_loop pfs stage has_file wq (m :: rest) tp nw
      = module_loop pfs stage has_file wq rest tp nw := by
  simp [module_loop, hc]

/-- In non-pfs mode, or once expired, the module loop never blocks: it
launches the script of every module whose file exists, in list order. -/
theorem module_loop_no_block (pfs : Bool) (stage : String) (has_file : String → Bool)
    (wq : Nat → Int) (l : List String) (tp : Int) (nw : Nat)
    (h : pfs = false ∨ tp < 0) :
    module_loop pfs stage has_file wq l tp nw
      = (tp, nw, (l.filter fun m => has_file (module_path m stage)).map
          fun m => Event.launch (module_path m stage)
            (if pfs then ForkPolicy.xfork else ForkPolicy.fork_dont_care)) := by
  induction l with
  | nil => simp [module_loop]
  | cons m rest ih =>
    by_cases hc : has_file (module_path m stage) = true
    · rw [module_loop_cons_sel pfs stage has_file wq m rest tp nw hc,
          PFS_WAIT_no_block pfs wq tp nw h]
      simp [ih, List.filter_cons, hc]
    · rw [module_loop_cons_skip pfs stage has_file wq m rest tp nw hc]
      simp [ih, List.filter_cons, hc]

/-- The module loop launches exactly the present scripts, in list order. -/
theorem module_loop_launchedPaths (pfs : Bool) (stage : String) (has_file : String → Bool)
    (wq : Nat → Int) (l : List String) : ∀ tp nw,
    launchedPaths (module_loop pfs stage has_file wq l tp nw).2.2
      = (l.filter fun m => has_file (module_path m stage)).map
          fun m => module_path m stage := by
  induction l with
  | nil => intro tp nw; simp [module_loop, launchedPaths]
  | cons m rest ih =>
    intro tp nw
    by_cases hc : has_file (module_path m stage) = true
    · rw [module_loop_cons_sel pfs stage has_file wq m rest tp nw hc]
      simp [launchedPaths, launchedPaths_append, PFS_WAIT_launchedPaths, ih,
            List.filter_cons, hc]
    · rw [module_loop_cons_skip pfs stage has_file wq m rest tp nw hc]
      simp [ih, List.filter_cons, hc]

/-- Every launch of the module loop uses the policy selected by `pfs`. -/
theorem module_loop_launchPolicies (pfs : Bool) (stage : String) (has_file : String → Bool)
    (wq : Nat → Int) (l : List String) : ∀ tp nw,
    launchPolicies (module_loop pfs stage has_file wq l tp nw).2.2
      = (l.filter fun m => has_file (module_path m stage)).map
          fun _ => if pfs then ForkPolicy.xfork else ForkPolicy.fork_dont_care := by
  induction l with
  | nil => intro tp nw; simp [module_loop, launchPolicies]
  | cons m rest ih =>
    intro tp nw
    by_cases hc : has_file (module_path m stage) = true
    · rw [module_loop_cons_sel pfs stage has_file wq m rest tp nw hc]
      simp [launchPolicies, launchPolicies_append, PFS_WAIT_launchPolicies, ih,
            List.filter_cons, hc]
    · rw [module_loop_cons_skip pfs stage has_file wq m rest tp nw hc]
      simp [ih, List.filter_cons, hc]

theorem module_loop_allLaunches (pfs : Bool) (stage : String) (has_file : String → Bool)
    (wq : Nat → Int) (l : List String) (tp : Int) (nw : Nat) :
    allLaunches (if pfs then ForkPolicy.xfork else ForkPolicy.fork_dont_care)
      (module_loop pfs stage has_file wq l tp nw).2.2 = true := by
  simp [allLaunches, module_loop_launchPolicies]

/-- The timer pid is only ever kept or set to the expired sentinel. -/
theorem module_loop_tp (pfs : Bool) (stage : String) (has_file : String → Bool)
    (wq : Nat → Int) (l : List String) : ∀ tp nw,
    (module_loop pfs stage has_file wq l tp nw).1 = tp
    ∨ (module_loop pfs stage has_file wq l tp nw).1 = -1 := by
  induction l with
  | nil => intro tp nw; left; simp [module_loop]
  | cons m rest ih =>
    intro tp nw
    by_cases hc : has_file (module_path m stage) = true
    · rw [module_loop_cons_sel pfs stage has_file wq m rest tp nw hc]
      rcases ih (PFS_WAIT pfs wq tp nw).1 (PFS_WAIT pfs wq tp nw).2.1 with hr | hr
      · rcases PFS_WAIT_tp pfs wq tp nw with hw | hw
        · left; rw [hr, hw]
        · right; rw [hr, hw]
      · right; rw [hr]
    · rw [module_loop_cons_skip pfs stage has_file wq m rest tp nw hc]
      exact ih tp nw

/-- If the module loop never warned, the timer pid is unchanged. -/
theorem module_loop_tp_of_no_warn (pfs : Bool) (stage : String) (has_file : String → Bool)
    (wq : Nat → Int) (l : List String) : ∀ tp nw,
    countWarn (module_loop pfs stage has_file wq l tp nw).2.2 = 0 →
    (module_loop pfs stage has_file wq l tp nw).1 = tp := by
  induction l with
  | nil => intro tp nw _; simp [module_loop]
  | cons m rest ih =>
    intro tp nw h
    by_cases hc : has_file (module_path m stage) = true
    · rw [module_loop_cons_sel pfs stage has_file wq m rest tp nw hc] at h ⊢
      simp only [countWarn_cons, countWarn_append, isWarn] at h
      have hw0 : countWarn (PFS_WAIT pfs wq tp nw).2.2 = 0 := by omega
      have hr0 : countWarn (module_loop pfs stage has_file wq rest (PFS_WAIT pfs wq tp nw).1
          (PFS_WAIT pfs wq tp nw).2.1).2.2 = 0 := by omega
      have hr := ih (PFS_WAIT pfs wq tp nw).1 (PFS_WAIT pfs wq tp nw).2.1 hr0
      rw [hr]
      exact PFS_WAIT_tp_of_no_warn pfs wq tp nw hw0
    · rw [module_loop_cons_skip pfs stage has_file wq m rest tp nw hc] at h ⊢
      exact ih tp nw h

/-- The module loop warns at most once, and after the warning no blocking
wait is ever performed again. -/
theorem module_loop_warn_wait (pfs : Bool) (stage : String) (has_file : String → Bool)
    (wq : Nat → Int) (l : List String) : ∀ tp nw,
    countWarn (module_loop pfs stage has_file wq l tp nw).2.2 ≤ 1
    ∧ hasWait (afterTimeout (module_loop pfs stage has_file wq l tp nw).2.2) = false := by
  induction l with
  | nil =>
    intro tp nw
    constructor <;> simp [module_loop, countWarn_nil, afterTimeout, hasWait]
  | cons m rest ih =>
    intro tp nw
    by_cases hc : has_file (module_path m stage) = true
    case neg =>
      rw [module_loop_cons_skip pfs stage has_file wq m rest tp nw hc]
      exact ih tp nw
    case pos =>
      have noblock : pfs = false ∨ tp < 0 →
          countWarn (module_loop pfs stage has_file wq (m :: rest) tp nw).2.2 ≤ 1
          ∧ hasWait
              (afterTimeout (module_loop pfs stage has_file wq (m :: rest) tp nw).2.2)
            = false := by
        intro hnb
        rw [module_loop_no_block pfs stage has_file wq (m :: rest) tp nw hnb]
        refine ⟨by simp [launch_map_countWarn], ?_⟩
        rw [afterTimeout_of_no_warn _ (launch_map_countWarn _ _ _)]
        simp [hasWait]
      by_cases hp : pfs = true
      case neg =>
        exact noblock (Or.inl (by simpa using hp))
      case pos =>
      by_cases ht : tp < 0
      case pos =>
        exact noblock (Or.inr ht)
      case neg =>
        rw [module_loop_cons_sel pfs stage has_file wq m rest tp nw hc]
        by_cases he : wq nw = tp
        · have hw : PFS_WAIT pfs wq tp nw
              = (-1, nw + 1, [Event.wait (wq nw), Event.warnTimeout]) := by
            simp [PFS_WAIT, hp, ht, he]
          rw [hw]
          rw [module_loop_no_block pfs stage has_file wq rest (-1) (nw + 1)
                (Or.inr (by norm_num))]
          constructor
          · simp [countWarn_cons, countWarn_append, isWarn, launch_map_countWarn,
                  countWarn_nil]
          · simp only [List.cons_append, List.nil_append, afterTimeout, isWarn,
                       Bool.false_eq_true, if_false, if_true, ite_false, ite_true]
            exact launch_map_hasWait _ _ _
        · have hw : PFS_WAIT pfs wq tp nw = (tp, nw + 1, [Event.wait (wq nw)]) := by
            simp [PFS_WAIT, hp, ht, he]
          rw [hw]
          obtain ⟨ih1, ih2⟩ := ih tp (nw + 1)
          constructor
          · simpa [countWarn_cons, countWarn_append, isWarn, countWarn_nil] using ih1
          · simpa [afterTimeout, isWarn] using ih2

/-! ## `PFS_SETUP` / `PFS_DONE` event facts and whole-function assembly -/

theorem PFS_SETUP_nonpfs (tp : Int) (env : PfsEnv) :
    PFS_SETUP false tp env = (SetupResult.go tp, []) := rfl

theorem PFS_SETUP_go (env : PfsEnv) (tp : Int)
    (h1 : 0 ≤ env.fork1) (h2 : env.timer_fork ≠ 0) :
    PFS_SETUP true tp env
      = (SetupResult.go env.timer_fork,
         [Event.forkSubtree env.fork1, Event.forkTimer env.timer_fork]) := by
  simp [PFS_SETUP, not_lt.mpr h1, h2]

theorem PFS_SETUP_fail (env : PfsEnv) (tp : Int) (h : env.fork1 < 0) :
    PFS_SETUP true tp env = (SetupResult.ret, [Event.forkSubtree env.fork1]) := by
  simp [PFS_SETUP, h]

/-- Setup emits no warning, no wait and no launch. -/
theorem PFS_SETUP_events (pfs : Bool) (tp : Int) (env : PfsEnv) :
    countWarn (PFS_SETUP pfs tp env).2 = 0
    ∧ hasWait (PFS_SETUP pfs tp env).2 = false
    ∧ launchedPaths (PFS_SETUP pfs tp env).2 = []
    ∧ launchPolicies (PFS_SETUP pfs tp env).2 = [] := by
  by_cases hp : pfs = true
  · by_cases h1 : env.fork1 < 0
    · simp [PFS_SETUP, hp, h1, countWarn_cons, countWarn_nil, isWarn, hasWait_cons,
            hasWait_nil, isWait, launchedPaths, launchPolicies]
    · by_cases h2 : env.timer_fork = 0 <;>
        simp [PFS_SETUP, hp, h1, h2, countWarn_cons, countWarn_nil, isWarn,
              hasWait_cons, hasWait_nil, isWait, launchedPaths, launchPolicies]
  · rw [Bool.not_eq_true] at hp
    simp [PFS_SETUP, hp, countWarn_nil, hasWait_nil, launchedPaths, launchPolicies]

/-- Teardown emits no warning, no wait and no launch. -/
theorem PFS_DONE_events (pfs : Bool) (tp : Int) :
    countWarn (PFS_DONE pfs tp) = 0
    ∧ hasWait (PFS_DONE pfs tp) = false
    ∧ launchedPaths (PFS_DONE pfs tp) = []
    ∧ launchPolicies (PFS_DONE pfs tp) = [] := by
  by_cases hp : pfs = true
  · by_cases h1 : tp > 0 <;>
      simp [PFS_DONE, hp, h1, countWarn_cons, countWarn_nil, isWarn, hasWait_cons,
            hasWait_nil, isWait, launchedPaths, launchPolicies]
  · rw [Bool.not_eq_true] at hp
    simp [PFS_DONE, hp, countWarn_nil, hasWait_nil, launchedPaths, launchPolicies]

/-- Composing a warn-free prefix, a loop trace, and a warn-free suffix
preserves the at-most-one-warning / no-wait-after-warning property. -/
theorem warn_wait_compose (a b c : List Event)
    (ha1 : countWarn a = 0)
    (hb1 : countWarn b ≤ 1) (hb2 : hasWait (afterTimeout b) = false)
    (hc1 : countWarn c = 0) (hc2 : hasWait c = false) :
    countWarn (a ++ b ++ c) ≤ 1
    ∧ hasWait (afterTimeout (a ++ b ++ c)) = false := by
  constructor
  · rw [countWarn_append, countWarn_append, ha1, hc1]
    omega
  · rw [List.append_assoc, afterTimeout_append_of_no_warn _ _ ha1]
    by_cases h0 : countWarn b = 0
    · rw [afterTimeout_append_of_no_warn _ _ h0, afterTimeout_of_no_warn _ hc1]
      rfl
    · rw [afterTimeout_append_of_warn _ _ h0, hasWait_append, hb2, hc2]
      rfl

/-- Event shape of the directory phase when setup continues into the loop. -/
theorem exec_common_scripts_events_go (stage : String) (entries : List dirent)
    (x_ok : String → Bool) (now : timespec) (env : PfsEnv) (pt : timespec)
    (tp : Int) (sevs : List Event)
    (hse : PFS_SETUP (stage == "post-fs-data") (-1) env = (SetupResult.go tp, sevs)) :
    (exec_common_scripts stage (some entries) x_ok now env pt).events
      = sevs
        ++ (common_loop (stage == "post-fs-data") stage x_ok env.wq entries tp 0).2.2
        ++ PFS_DONE (stage == "post-fs-data")
            (common_loop (stage == "post-fs-data") stage x_ok env.wq entries tp 0).1 := by
  simp [exec_common_scripts, hse]

/-- Event shape of the directory phase when setup returns early. -/
theorem exec_common_scripts_events_ret (stage : String) (entries : List dirent)
    (x_ok : String → Bool) (now : timespec) (env : PfsEnv) (pt : timespec)
    (sevs : List Event)
    (hse : PFS_SETUP (stage == "post-fs-data") (-1) env = (SetupResult.ret, sevs)) :
    (exec_common_scripts stage (some entries) x_ok now env pt).events = sevs := by
  simp [exec_common_scripts, hse]

/-- Event shape of the directory phase in the timer-child branch. -/
theorem exec_common_scripts_events_timer (stage : String) (entries : List dirent)
    (x_ok : String → Bool) (now : timespec) (env : PfsEnv) (pt : timespec)
    (sevs : List Event)
    (hse : PFS_SETUP (stage == "post-fs-data") (-1) env = (SetupResult.timerProc, sevs)) :
    (exec_common_scripts stage (some entries) x_ok now env pt).events = sevs := by
  simp [exec_common_scripts, hse]

/-- Event shape of the module phase when setup continues into the loop. -/
theorem exec_module_scripts_events_go (stage : String) (mods : List String)
    (has_file : String → Bool) (now : timespec) (env : PfsEnv) (pt : timespec)
    (tp : Int) (sevs : List Event)
    (hm : mods.isEmpty = false)
    (hse : PFS_SETUP (module_pfs stage now pt) (-1) env = (SetupResult.go tp, sevs)) :
    exec_module_scripts stage mods has_file now env pt
      = sevs
        ++ (module_loop (module_pfs stage now pt) stage has_file env.wq mods tp 0).2.2
        ++ PFS_DONE (module_pfs stage now pt)
            (module_loop (module_pfs stage now pt) stage has_file env.wq mods tp 0).1 := by
  simp [exec_module_scripts, hm, hse]

/-- Event shape of the module phase when setup returns early. -/
theorem exec_module_scripts_events_ret (stage : String) (mods : List String)
    (has_file : String → Bool) (now : timespec) (env : PfsEnv) (pt : timespec)
    (sevs : List Event)
    (hm : mods.isEmpty = false)
    (hse : PFS_SETUP (module_pfs stage now pt) (-1) env = (SetupResult.ret, sevs)) :
    exec_module_scripts stage mods has_file now env pt = sevs := by
  simp [exec_module_scripts, hm, hse]

/-- Event shape of the module phase in the timer-child branch. -/
theorem exec_module_scripts_events_timer (stage : String) (mods : List String)
    (has_file : String → Bool) (now : timespec) (env : PfsEnv) (pt : timespec)
    (sevs : List Event)
    (hm : mods.isEmpty = false)
    (hse : PFS_SETUP (module_pfs stage now pt) (-1) env = (SetupResult.timerProc, sevs)) :
    exec_module_scripts stage mods has_file now env pt = sevs := by
  simp [exec_module_scripts, hm, hse]

/-- The whole directory phase warns at most once and never blocks after
the warning, for every input. -/
theorem exec_common_scripts_warn_wait (stage : String) (dir : Option (List dirent))
    (x_ok : String → Bool) (now : timespec) (env : PfsEnv) (pt : timespec) :
    countWarn (exec_common_scripts stage dir x_ok now env pt).events ≤ 1
    ∧ hasWait (afterTimeout (exec_common_scripts stage dir x_ok now env pt).events)
        = false := by
  cases dir with
  | none =>
    constructor
    · simp [exec_common_scripts, countWarn_nil]
    · simp [exec_common_scripts, afterTimeout, hasWait]
  | some entries =>
    rcases hse : PFS_SETUP (stage == "post-fs-data") (-1) env with ⟨sr, sevs⟩
    have hs := PFS_SETUP_events (stage == "post-fs-data") (-1) env
    rw [hse] at hs
    cases sr with
    | ret =>
      rw [exec_common_scripts_events_ret stage entries x_ok now env pt sevs hse]
      refine ⟨by rw [hs.1]; omega, ?_⟩
      rw [afterTimeout_of_no_warn _ hs.1]
      rfl
    | timerProc =>
      rw [exec_common_scripts_events_timer stage entries x_ok now env pt sevs hse]
      refine ⟨by rw [hs.1]; omega, ?_⟩
      rw [afterTimeout_of_no_warn _ hs.1]
      rfl
    | go tp =>
      rw [exec_common_scripts_events_go stage entries x_ok now env pt tp sevs hse]
      obtain ⟨hb1, hb2⟩ :=
        common_loop_warn_wait (stage == "post-fs-data") stage x_ok env.wq entries tp 0
      obtain ⟨hd1, hd2, -, -⟩ := PFS_DONE_events (stage == "post-fs-data")
        (common_loop (stage == "post-fs-data") stage x_ok env.wq entries tp 0).1
      exact warn_wait_compose _ _ _ hs.1 hb1 hb2 hd1 hd2

/-- The whole module phase warns at most once and never blocks after the
warning, for every input. -/
theorem exec_module_scripts_warn_wait (stage : String) (mods : List String)
    (has_file : String → Bool) (now : timespec) (env : PfsEnv) (pt : timespec) :
    countWarn (exec_module_scripts stage mods has_file now env pt) ≤ 1
    ∧ hasWait (afterTimeout (exec_module_scripts stage mods has_file now env pt))
        = false := by
  by_cases hm : mods.isEmpty
  · constructor
    · simp [exec_module_scripts, hm, countWarn_nil]
    · simp [exec_module_scripts, hm, afterTimeout, hasWait]
  · rw [Bool.not_eq_true] at hm
    rcases hse : PFS_SETUP (module_pfs stage now pt) (-1) env with ⟨sr, sevs⟩
    have hs := PFS_SETUP_events (module_pfs stage now pt) (-1) env
    rw [hse] at hs
    cases sr with
    | ret =>
      rw [exec_module_scripts_events_ret stage mods has_file now env pt sevs hm hse]
      refine ⟨by rw [hs.1]; omega, ?_⟩
      rw [afterTimeout_of_no_warn _ hs.1]
      rfl
    | timerProc =>
      rw [exec_module_scripts_events_timer stage mods has_file now env pt sevs hm hse]
      refine ⟨by rw [hs.1]; omega, ?_⟩
      rw [afterTimeout_of_no_warn _ hs.1]
      rfl
    | go tp =>
      rw [exec_module_scripts_events_go stage mods has_file now env pt tp sevs hm hse]
      obtain ⟨hb1, hb2⟩ :=
        module_loop_warn_wait (module_pfs stage now pt) stage has_file env.wq mods tp 0
      obtain ⟨hd1, hd2, -, -⟩ := PFS_DONE_events (module_pfs stage now pt)
        (module_loop (module_pfs stage now pt) stage has_file env.wq mods tp 0).1
      exact warn_wait_compose _ _ _ hs.1 hb1 hb2 hd1 hd2

theorem module_pfs_eval (now pt : timespec) :
    module_pfs "post-fs-data" now pt = !(timespec_gt now pt) := by
  simp [module_pfs]

/-- With both forks succeeding (hypotheses), the directory phase launches
exactly the regular executable entries, in listing order, whatever the
stage. -/
theorem exec_common_scripts_launchedPaths (stage : String) (entries : List dirent)
    (x_ok : String → Bool) (now : timespec) (env : PfsEnv) (pt : timespec)
    (h1 : 0 ≤ env.fork1) (h2 : env.timer_fork ≠ 0) :
    launchedPaths (exec_common_scripts stage (some entries) x_ok now env pt).events
      = (entries.filter fun e => e.d_type == DT_REG && x_ok e.d_name).map
          fun e => scriptPath stage e.d_name := by
  by_cases hp : (stage == "post-fs-data") = true
  · have hse : PFS_SETUP (stage == "post-fs-data") (-1) env
        = (SetupResult.go env.timer_fork,
           [Event.forkSubtree env.fork1, Event.forkTimer env.timer_fork]) := by
      rw [hp]
      exact PFS_SETUP_go env (-1) h1 h2
    rw [exec_common_scripts_events_go stage entries x_ok now env pt env.timer_fork _ hse]
    rw [launchedPaths_append, launchedPaths_append, common_loop_launchedPaths]
    obtain ⟨-, -, hd, -⟩ := PFS_DONE_events (stage == "post-fs-data")
      (common_loop (stage == "post-fs-data") stage x_ok env.wq entries env.timer_fork 0).1
    rw [hd]
    simp [launchedPaths]
  · rw [Bool.not_eq_true] at hp
    have hse : PFS_SETUP (stage == "post-fs-data") (-1) env
        = (SetupResult.go (-1), []) := by
      rw [hp]
      exact PFS_SETUP_nonpfs (-1) env
    rw [exec_common_scripts_events_go stage entries x_ok now env pt (-1) [] hse]
    rw [launchedPaths_append, launchedPaths_append, common_loop_launchedPaths]
    obtain ⟨-, -, hd, -⟩ := PFS_DONE_events (stage == "post-fs-data")
      (common_loop (stage == "post-fs-data") stage x_ok env.wq entries (-1) 0).1
    rw [hd]
    simp [launchedPaths]

/-- With both forks succeeding (hypotheses), the module phase launches
exactly the present module scripts, in list order, whatever the stage. -/
theorem exec_module_scripts_launchedPaths (stage : String) (mods : List String)
    (has_file : String → Bool) (now : timespec) (env : PfsEnv) (pt : timespec)
    (h1 : 0 ≤ env.fork1) (h2 : env.timer_fork ≠ 0) :
    launchedPaths (exec_module_scripts stage mods has_file now env pt)
      = (mods.filter fun m => has_file (module_path m stage)).map
          fun m => module_path m stage := by
  by_cases hm : mods.isEmpty
  · have hnil : mods = [] := by simpa using hm
    subst hnil
    simp [exec_module_scripts, launchedPaths]
  · rw [Bool.not_eq_true] at hm
    by_cases hp : module_pfs stage now pt = true
    · have hse : PFS_SETUP (module_pfs stage now pt) (-1) env
          = (SetupResult.go env.timer_fork,
             [Event.forkSubtree env.fork1, Event.forkTimer env.timer_fork]) := by
        rw [hp]
        exact PFS_SETUP_go env (-1) h1 h2
      rw [exec_module_scripts_events_go stage mods has_file now env pt env.timer_fork _ hm hse]
      rw [launchedPaths_append, launchedPaths_append, module_loop_launchedPaths]
      obtain ⟨-, -, hd, -⟩ := PFS_DONE_events (module_pfs stage now pt)
        (module_loop (module_pfs stage now pt) stage has_file env.wq mods env.timer_fork 0).1
      rw [hd]
      simp [launchedPaths]
    · rw [Bool.not_eq_true] at hp
      have hse : PFS_SETUP (module_pfs stage now pt) (-1) env
          = (SetupResult.go (-1), []) := by
        rw [hp]
        exact PFS_SETUP_nonpfs (-1) env
      rw [exec_module_scripts_events_go stage mods has_file now env pt (-1) [] hm hse]
      rw [launchedPaths_append, launchedPaths_append, module_loop_launchedPaths]
      obtain ⟨-, -, hd, -⟩ := PFS_DONE_events (module_pfs stage now pt)
        (module_loop (module_pfs stage now pt) stage has_file env.wq mods (-1) 0).1
      rw [hd]
      simp [launchedPaths]

theorem launch_map_hasForkEv {α : Type} (g : α → String) (p : ForkPolicy) (M : List α) :
    hasForkEv (M.map fun x => Event.launch (g x) p) = false := by
  induction M with
  | nil => rfl
  | cons x r ih => simp [hasForkEv, isForkEv] at ih ⊢

/-- Dropping a head event preserves "all launches use policy `p`". -/
theorem allLaunches_cons (p : ForkPolicy) (e : Event) (r : List Event)
    (h : allLaunches p (e :: r) = true) : allLaunches p r = true := by
  cases e
  case launch q f =>
    simp only [allLaunches, launchPolicies, List.all_cons, Bool.and_eq_true] at h
    exact h.2
  all_goals simpa [allLaunches, launchPolicies] using h

/-- The post-timeout suffix of a trace whose launches all use policy `p`
also has all its launches using `p`. -/
theorem allLaunches_afterTimeout (p : ForkPolicy) (evs : List Event)
    (h : allLaunches p evs = true) : allLaunches p (afterTimeout evs) = true := by
  induction evs with
  | nil => simpa [afterTimeout] using h
  | cons e r ih =>
    have hr := allLaunches_cons p e r h
    by_cases hw : isWarn e = true
    · simpa [afterTimeout, hw] using hr
    · rw [Bool.not_eq_true] at hw
      simpa [afterTimeout, hw] using ih hr

/-- A module phase of the timed stage entered after the deadline reduces
to a pure fire-and-forget launch sequence of the present scripts. -/
theorem exec_module_scripts_expired_eq (mods : List String) (has_file : String → Bool)
    (now : timespec) (env : PfsEnv) (pt : timespec)
    (h : timespec_gt now pt = true) :
    exec_module_scripts "post-fs-data" mods has_file now env pt
      = (mods.filter fun m => has_file (module_path m "post-fs-data")).map
          fun m => Event.launch (module_path m "post-fs-data")
            ForkPolicy.fork_dont_care := by
  by_cases hm : mods.isEmpty
  · have hnil : mods = [] := by simpa using hm
    subst hnil
    simp [exec_module_scripts]
  · rw [Bool.not_eq_true] at hm
    have hp : module_pfs "post-fs-data" now pt = false := by
      rw [module_pfs_eval, h]
      rfl
    have hse : PFS_SETUP (module_pfs "post-fs-data" now pt) (-1) env
        = (SetupResult.go (-1), []) := by
      rw [hp]
      exact PFS_SETUP_nonpfs (-1) env
    rw [exec_module_scripts_events_go "post-fs-data" mods has_file now env pt (-1) [] hm hse]
    rw [module_loop_no_block _ _ _ _ _ _ _ (Or.inl hp), hp]
    simp [PFS_DONE]

/-- In the timed stage, every launch of the directory phase uses the plain
`xfork` policy, whatever happens with the timer. -/
theorem exec_common_scripts_pfs_allLaunches (entries : List dirent)
    (x_ok : String → Bool) (now : timespec) (env : PfsEnv) (pt : timespec) :
    allLaunches ForkPolicy.xfork
      (exec_common_scripts "post-fs-data" (some entries) x_ok now env pt).events
      = true := by
  have hbeq : ("post-fs-data" == "post-fs-data") = true := rfl
  rcases hse : PFS_SETUP ("post-fs-data" == "post-fs-data") (-1) env with ⟨sr, sevs⟩
  have hs := PFS_SETUP_events ("post-fs-data" == "post-fs-data") (-1) env
  rw [hse] at hs
  cases sr with
  | ret =>
    rw [exec_common_scripts_events_ret "post-fs-data" entries x_ok now env pt sevs hse]
    simp [allLaunches, hs.2.2.2]
  | timerProc =>
    rw [exec_common_scripts_events_timer "post-fs-data" entries x_ok now env pt sevs hse]
    simp [allLaunches, hs.2.2.2]
  | go tp =>
    rw [exec_common_scripts_events_go "post-fs-data" entries x_ok now env pt tp sevs hse,
        hbeq]
    rw [allLaunches_append, allLaunches_append]
    have hl := common_loop_allLaunches true "post-fs-data" x_ok env.wq entries tp 0
    rw [if_pos rfl] at hl
    have hd := (PFS_DONE_events true
      (common_loop true "post-fs-data" x_ok env.wq entries tp 0).1).2.2.2
    have hsv : allLaunches ForkPolicy.xfork sevs = true := by
      simp [allLaunches, hs.2.2.2]
    have hdn : allLaunches ForkPolicy.xfork
        (PFS_DONE true (common_loop true "post-fs-data" x_ok env.wq entries tp 0).1)
        = true := by
      simp [allLaunches, hd]
    rw [hsv, hl, hdn]
    rfl

/-! ## Claims -/

/-- C1 (counterexample): in a timed-stage run where the timer is reaped
after the first directory script, the remaining directory script is still
launched with the plain `xfork` policy, not with `fork_dont_care`:
`.fork = pfs ? xfork : fork_dont_care` depends only on the never-mutated
local `pfs`, not on `timer_pid`. -/
theorem C1_counterexample :
    afterTimeout (exec_common_scripts "post-fs-data"
        (some [⟨"10-fast", 8⟩, ⟨"20-slow", 8⟩]) (fun _ => true)
        ⟨100, 0⟩ ⟨7, 9, fun _ => 9⟩ pfs_timeout0).events
      = [Event.launch "/data/adb/post-fs-data.d/20-slow" ForkPolicy.xfork,
         Event.exitSubtree]
    ∧ ForkPolicy.xfork ≠ ForkPolicy.fork_dont_care := by
  constructor
  · rfl
  · decide

/-- C1 (amended): once the timer process is reaped, the wait step is
skipped for every subsequent script of the directory phase, and the later
module phase — entered after the deadline — launches every script with the
detach-dont-care policy and no waits; the remaining directory scripts of
the same `exec_common_scripts` call, however, are still launched with the
plain `xfork` policy (only their wait is skipped). -/
theorem C1_expired_launch_policy (entries : List dirent) (x_ok : String → Bool)
    (now : timespec) (env : PfsEnv) (pt : timespec)
    (mods : List String) (has_file : String → Bool) (now2 : timespec)
    (env2 : PfsEnv) (pt2 : timespec)
    (h : timespec_gt now2 pt2 = true) :
    hasWait (afterTimeout
        (exec_common_scripts "post-fs-data" (some entries) x_ok now env pt).events)
      = false
    ∧ allLaunches ForkPolicy.xfork (afterTimeout
        (exec_common_scripts "post-fs-data" (some entries) x_ok now env pt).events)
      = true
    ∧ allLaunches ForkPolicy.fork_dont_care
        (exec_module_scripts "post-fs-data" mods has_file now2 env2 pt2) = true
    ∧ hasWait (exec_module_scripts "post-fs-data" mods has_file now2 env2 pt2)
      = false := by
  refine ⟨(exec_common_scripts_warn_wait "post-fs-data" (some entries) x_ok now env pt).2,
    allLaunches_afterTimeout _ _
      (exec_common_scripts_pfs_allLaunches entries x_ok now env pt), ?_, ?_⟩
  · rw [exec_module_scripts_expired_eq mods has_file now2 env2 pt2 h]
    exact launch_map_allLaunches _ _ _
  · rw [exec_module_scripts_expired_eq mods has_file now2 env2 pt2 h]
    exact launch_map_hasWait _ _ _

/-- C1 (amended) at a concrete input. -/
theorem C1_witness :
    timespec_gt ⟨100, 0⟩ ⟨50, 0⟩ = true
    ∧ (hasWait (afterTimeout
          (exec_common_scripts "post-fs-data" (some [⟨"10-fast", 8⟩, ⟨"20-slow", 8⟩])
            (fun _ => true) ⟨100, 0⟩ ⟨7, 9, fun _ => 9⟩ pfs_timeout0).events)
        = false
       ∧ allLaunches ForkPolicy.xfork (afterTimeout
          (exec_common_scripts "post-fs-data" (some [⟨"10-fast", 8⟩, ⟨"20-slow", 8⟩])
            (fun _ => true) ⟨100, 0⟩ ⟨7, 9, fun _ => 9⟩ pfs_timeout0).events)
        = true
       ∧ allLaunches ForkPolicy.fork_dont_care
          (exec_module_scripts "post-fs-data" ["alpha"] (fun _ => true) ⟨100, 0⟩
            ⟨7, 9, fun _ => 42⟩ ⟨50, 0⟩) = true
       ∧ hasWait (exec_module_scripts "post-fs-data" ["alpha"] (fun _ => true) ⟨100, 0⟩
            ⟨7, 9, fun _ => 42⟩ ⟨50, 0⟩) = false) :=
  ⟨by decide,
   C1_expired_launch_policy [⟨"10-fast", 8⟩, ⟨"20-slow", 8⟩] (fun _ => true)
     ⟨100, 0⟩ ⟨7, 9, fun _ => 9⟩ pfs_timeout0 ["alpha"] (fun _ => true) ⟨100, 0⟩
     ⟨7, 9, fun _ => 42⟩ ⟨50, 0⟩ (by decide)⟩

/-- C2: the blocking flag (`timer_pid` non-negative) transitions to the
expired sentinel at most once per invocation and is never re-armed —
the loop's final `timer_pid` is either the initial one or `-1`, the
timeout warning fires at most once per phase, and after it no blocking
wait-for-any-child call ever occurs again, in either phase. -/
theorem C2_blocking_flag_monotone (stage st2 : String) (dir : Option (List dirent))
    (x_ok : String → Bool) (now now2 : timespec) (env env2 : PfsEnv)
    (pt pt2 : timespec) (mods : List String) (has_file : String → Bool)
    (pfs : Bool) (wq : Nat → Int) (l : List dirent) (tp : Int) (nw : Nat) :
    ((common_loop pfs stage x_ok wq l tp nw).1 = tp
      ∨ (common_loop pfs stage x_ok wq l tp nw).1 = -1)
    ∧ countWarn (exec_common_scripts stage dir x_ok now env pt).events ≤ 1
    ∧ hasWait (afterTimeout (exec_common_scripts stage dir x_ok now env pt).events)
        = false
    ∧ countWarn (exec_module_scripts st2 mods has_file now2 env2 pt2) ≤ 1
    ∧ hasWait (afterTimeout (exec_module_scripts st2 mods has_file now2 env2 pt2))
        = false := by
  obtain ⟨c1, c2⟩ := exec_common_scripts_warn_wait stage dir x_ok now env pt
  obtain ⟨m1, m2⟩ := exec_module_scripts_warn_wait st2 mods has_file now2 env2 pt2
  exact ⟨common_loop_tp pfs stage x_ok wq l tp nw, c1, c2, m1, m2⟩

/-- C3: if the timed stage's module phase begins after the stored deadline
has passed, it starts directly in the non-blocking state: no subtree fork,
no timer fork, no blocking wait, and every present module script is
launched with the detach-dont-care policy, in list order. -/
theorem C3_module_phase_expired_start (mods : List String) (has_file : String → Bool)
    (now : timespec) (env : PfsEnv) (pt : timespec)
    (h : timespec_gt now pt = true) :
    hasForkEv (exec_module_scripts "post-fs-data" mods has_file now env pt) = false
    ∧ hasWait (exec_module_scripts "post-fs-data" mods has_file now env pt) = false
    ∧ allLaunches ForkPolicy.fork_dont_care
        (exec_module_scripts "post-fs-data" mods has_file now env pt) = true
    ∧ launchedPaths (exec_module_scripts "post-fs-data" mods has_file now env pt)
      = (mods.filter fun m => has_file (module_path m "post-fs-data")).map
          fun m => module_path m "post-fs-data" := by
  rw [exec_module_scripts_expired_eq mods has_file now env pt h]
  exact ⟨launch_map_hasForkEv _ _ _, launch_map_hasWait _ _ _,
    launch_map_allLaunches _ _ _, launch_map_launchedPaths _ _ _⟩

/-- C3 at a concrete input. -/
theorem C3_witness :
    timespec_gt ⟨100, 0⟩ ⟨50, 0⟩ = true
    ∧ (hasForkEv (exec_module_scripts "post-fs-data" ["alpha", "beta"]
          (fun p => p == module_path "alpha" "post-fs-data") ⟨100, 0⟩
          ⟨7, 9, fun _ => 42⟩ ⟨50, 0⟩) = false
       ∧ hasWait (exec_module_scripts "post-fs-data" ["alpha", "beta"]
          (fun p => p == module_path "alpha" "post-fs-data") ⟨100, 0⟩
          ⟨7, 9, fun _ => 42⟩ ⟨50, 0⟩) = false
       ∧ allLaunches ForkPolicy.fork_dont_care
          (exec_module_scripts "post-fs-data" ["alpha", "beta"]
            (fun p => p == module_path "alpha" "post-fs-data") ⟨100, 0⟩
            ⟨7, 9, fun _ => 42⟩ ⟨50, 0⟩) = true
       ∧ launchedPaths (exec_module_scripts "post-fs-data" ["alpha", "beta"]
          (fun p => p == module_path "alpha" "post-fs-data") ⟨100, 0⟩
          ⟨7, 9, fun _ => 42⟩ ⟨50, 0⟩)
        = (["alpha", "beta"].filter fun m =>
            (fun p => p == module_path "alpha" "post-fs-data")
              (module_path m "post-fs-data")).map
            fun m => module_path m "post-fs-data") :=
  ⟨by decide,
   C3_module_phase_expired_start ["alpha", "beta"]
     (fun p => p == module_path "alpha" "post-fs-data") ⟨100, 0⟩
     ⟨7, 9, fun _ => 42⟩ ⟨50, 0⟩ (by decide)⟩

/-- C4: if the timer-process fork fails (negative pid), the timed stage
degrades immediately to the expired behaviour instead of aborting or
hanging: every regular executable entry is still launched, and no blocking
wait-for-any-child call is ever performed in the invocation. -/
theorem C4_timer_fork_failure_degrades (entries : List dirent) (x_ok : String → Bool)
    (now : timespec) (env : PfsEnv) (pt : timespec)
    (h1 : 0 ≤ env.fork1) (h2 : env.timer_fork < 0) :
    launchedPaths
        (exec_common_scripts "post-fs-data" (some entries) x_ok now env pt).events
      = (entries.filter fun e => e.d_type == DT_REG && x_ok e.d_name).map
          (fun e => scriptPath "post-fs-data" e.d_name)
    ∧ hasWait (exec_common_scripts "post-fs-data" (some entries) x_ok now env pt).events
      = false := by
  have h2' : env.timer_fork ≠ 0 := by omega
  refine ⟨exec_common_scripts_launchedPaths "post-fs-data" entries x_ok now env pt h1 h2',
    ?_⟩
  have hse : PFS_SETUP ("post-fs-data" == "post-fs-data") (-1) env
      = (SetupResult.go env.timer_fork,
         [Event.forkSubtree env.fork1, Event.forkTimer env.timer_fork]) := by
    rw [show ("post-fs-data" == "post-fs-data") = true from rfl]
    exact PFS_SETUP_go env (-1) h1 h2'
  rw [exec_common_scripts_events_go "post-fs-data" entries x_ok now env pt
        env.timer_fork _ hse]
  rw [common_loop_no_block _ _ _ _ _ _ _ (Or.inr h2)]
  simp [hasWait_append, hasWait_cons, hasWait_nil, isWait, launch_map_hasWait,
        (PFS_DONE_events true env.timer_fork).2.1]

/-- C4 at a concrete input. -/
theorem C4_witness :
    ((0:Int) ≤ 7 ∧ (-1:Int) < 0)
    ∧ (launchedPaths (exec_common_scripts "post-fs-data" (some [⟨"10-fast", 8⟩])
          (fun _ => true) ⟨100, 0⟩ ⟨7, -1, fun _ => 42⟩ pfs_timeout0).events
        = ([(⟨"10-fast", 8⟩ : dirent)].filter fun e =>
              e.d_type == DT_REG && (fun _ => true) e.d_name).map
            (fun e => scriptPath "post-fs-data" e.d_name)
       ∧ hasWait (exec_common_scripts "post-fs-data" (some [⟨"10-fast", 8⟩])
          (fun _ => true) ⟨100, 0⟩ ⟨7, -1, fun _ => 42⟩ pfs_timeout0).events
        = false) :=
  ⟨⟨by decide, by decide⟩,
   C4_timer_fork_failure_degrades [⟨"10-fast", 8⟩] (fun _ => true) ⟨100, 0⟩
     ⟨7, -1, fun _ => 42⟩ pfs_timeout0 (by decide) (by decide)⟩

/-- C5: in every timed-stage phase whose timer process was never reaped
(no timeout warning was ever emitted), the supervisor forcibly terminates
the still-live timer with SIGKILL just before the subtree exits — the
trace ends with `killTimer` followed by `exitSubtree`, so no sleeper
process leaks past the phase.  Stated for both phases that arm a timer:
the directory phase, and the module phase entered before the deadline
with a non-empty module list. -/
theorem C5_timer_killed_when_no_timeout (entries : List dirent) (x_ok : String → Bool)
    (now : timespec) (env : PfsEnv) (pt : timespec)
    (mods : List String) (has_file : String → Bool) (now2 : timespec)
    (env2 : PfsEnv) (pt2 : timespec)
    (h1 : 0 ≤ env.fork1) (h2 : 0 < env.timer_fork)
    (h3 : countWarn
        (exec_common_scripts "post-fs-data" (some entries) x_ok now env pt).events
      = 0)
    (hm : mods.isEmpty = false) (hgt : timespec_gt now2 pt2 = false)
    (h4 : 0 ≤ env2.fork1) (h5 : 0 < env2.timer_fork)
    (h6 : countWarn (exec_module_scripts "post-fs-data" mods has_file now2 env2 pt2)
      = 0) :
    (∃ pre, (exec_common_scripts "post-fs-data" (some entries) x_ok now env pt).events
      = pre ++ [Event.killTimer env.timer_fork, Event.exitSubtree])
    ∧ (∃ pre, exec_module_scripts "post-fs-data" mods has_file now2 env2 pt2
      = pre ++ [Event.killTimer env2.timer_fork, Event.exitSubtree]) := by
  constructor
  · have h2' : env.timer_fork ≠ 0 := by omega
    have hse : PFS_SETUP ("post-fs-data" == "post-fs-data") (-1) env
        = (SetupResult.go env.timer_fork,
           [Event.forkSubtree env.fork1, Event.forkTimer env.timer_fork]) := by
      rw [show ("post-fs-data" == "post-fs-data") = true from rfl]
      exact PFS_SETUP_go env (-1) h1 h2'
    rw [exec_common_scripts_events_go "post-fs-data" entries x_ok now env pt
          env.timer_fork _ hse] at h3 ⊢
    rw [countWarn_append, countWarn_append] at h3
    have hs0 : countWarn [Event.forkSubtree env.fork1, Event.forkTimer env.timer_fork]
        = 0 := by
      simp [countWarn_cons, countWarn_nil, isWarn]
    have hd0 := (PFS_DONE_events ("post-fs-data" == "post-fs-data")
      (common_loop ("post-fs-data" == "post-fs-data") "post-fs-data" x_ok env.wq
        entries env.timer_fork 0).1).1
    have hl0 : countWarn (common_loop ("post-fs-data" == "post-fs-data") "post-fs-data"
        x_ok env.wq entries env.timer_fork 0).2.2 = 0 := by omega
    have htp := common_loop_tp_of_no_warn ("post-fs-data" == "post-fs-data")
      "post-fs-data" x_ok env.wq entries env.timer_fork 0 hl0
    rw [htp]
    have hpd : PFS_DONE ("post-fs-data" == "post-fs-data") env.timer_fork
        = [Event.killTimer env.timer_fork, Event.exitSubtree] := by
      rw [show ("post-fs-data" == "post-fs-data") = true from rfl]
      simp [PFS_DONE, h2]
    rw [hpd]
    exact ⟨_, rfl⟩
  · have h5' : env2.timer_fork ≠ 0 := by omega
    have hp : module_pfs "post-fs-data" now2 pt2 = true := by
      rw [module_pfs_eval, hgt]
      rfl
    have hse : PFS_SETUP (module_pfs "post-fs-data" now2 pt2) (-1) env2
        = (SetupResult.go env2.timer_fork,
           [Event.forkSubtree env2.fork1, Event.forkTimer env2.timer_fork]) := by
      rw [hp]
      exact PFS_SETUP_go env2 (-1) h4 h5'
    rw [exec_module_scripts_events_go "post-fs-data" mods has_file now2 env2 pt2
          env2.timer_fork _ hm hse] at h6 ⊢
    rw [countWarn_append, countWarn_append] at h6
    have hs0 : countWarn [Event.forkSubtree env2.fork1, Event.forkTimer env2.timer_fork]
        = 0 := by
      simp [countWarn_cons, countWarn_nil, isWarn]
    have hd0 := (PFS_DONE_events (module_pfs "post-fs-data" now2 pt2)
      (module_loop (module_pfs "post-fs-data" now2 pt2) "post-fs-data" has_file env2.wq
        mods env2.timer_fork 0).1).1
    have hl0 : countWarn (module_loop (module_pfs "post-fs-data" now2 pt2)
        "post-fs-data" has_file env2.wq mods env2.timer_fork 0).2.2 = 0 := by omega
    have htp := module_loop_tp_of_no_warn (module_pfs "post-fs-data" now2 pt2)
      "post-fs-data" has_file env2.wq mods env2.timer_fork 0 hl0
    rw [htp]
    have hpd : PFS_DONE (module_pfs "post-fs-data" now2 pt2) env2.timer_fork
        = [Event.killTimer env2.timer_fork, Event.exitSubtree] := by
      rw [hp]
      simp [PFS_DONE, h5]
    rw [hpd]
    exact ⟨_, rfl⟩

/-- C5 at a concrete input for both phases (the reaped pid 42 is never the
timer's 9; the module phase starts before its deadline). -/
theorem C5_witness :
    ((0:Int) ≤ 7 ∧ (0:Int) < 9
      ∧ countWarn (exec_common_scripts "post-fs-data" (some [⟨"10-fast", 8⟩])
          (fun _ => true) ⟨100, 0⟩ ⟨7, 9, fun _ => 42⟩ pfs_timeout0).events = 0
      ∧ (["alpha"] : List String).isEmpty = false
      ∧ timespec_gt ⟨10, 0⟩ ⟨50, 0⟩ = false
      ∧ countWarn (exec_module_scripts "post-fs-data" ["alpha"] (fun _ => true)
          ⟨10, 0⟩ ⟨7, 9, fun _ => 42⟩ ⟨50, 0⟩) = 0)
    ∧ ((∃ pre, (exec_common_scripts "post-fs-data" (some [⟨"10-fast", 8⟩])
          (fun _ => true) ⟨100, 0⟩ ⟨7, 9, fun _ => 42⟩ pfs_timeout0).events
        = pre ++ [Event.killTimer 9, Event.exitSubtree])
       ∧ (∃ pre, exec_module_scripts "post-fs-data" ["alpha"] (fun _ => true)
          ⟨10, 0⟩ ⟨7, 9, fun _ => 42⟩ ⟨50, 0⟩
        = pre ++ [Event.killTimer 9, Event.exitSubtree])) :=
  ⟨⟨by decide, by decide, by decide, by decide, by decide, by decide⟩,
   C5_timer_killed_when_no_timeout [⟨"10-fast", 8⟩] (fun _ => true) ⟨100, 0⟩
     ⟨7, 9, fun _ => 42⟩ pfs_timeout0 ["alpha"] (fun _ => true) ⟨10, 0⟩
     ⟨7, 9, fun _ => 42⟩ ⟨50, 0⟩ (by decide) (by decide) (by decide) (by decide)
     (by decide) (by decide) (by decide) (by decide)⟩

/-- C6: `exec_common_scripts` launches exactly the directory entries that
are regular files (`d_type == DT_REG`) with execute permission, skipping
all others, in the order the directory listing yields them. -/
theorem C6_common_scripts_selection (stage : String) (entries : List dirent)
    (x_ok : String → Bool) (now : timespec) (env : PfsEnv) (pt : timespec)
    (h1 : 0 ≤ env.fork1) (h2 : env.timer_fork ≠ 0) :
    launchedPaths (exec_common_scripts stage (some entries) x_ok now env pt).events
      = (entries.filter fun e => e.d_type == DT_REG && x_ok e.d_name).map
          fun e => scriptPath stage e.d_name :=
  exec_common_scripts_launchedPaths stage entries x_ok now env pt h1 h2

/-- C6 at a concrete input: a directory entry (`d_type` 4) and a
non-executable regular file are skipped; only the executable regular file
launches. -/
theorem C6_witness :
    ((0:Int) ≤ 7 ∧ (9:Int) ≠ 0)
    ∧ launchedPaths (exec_common_scripts "post-fs-data"
        (some [⟨"10-fast", 8⟩, ⟨"subdir", 4⟩, ⟨"20-noexec", 8⟩])
        (fun n => n != "20-noexec") ⟨100, 0⟩ ⟨7, 9, fun _ => 42⟩ pfs_timeout0).events
      = ["/data/adb/post-fs-data.d/10-fast"] :=
  ⟨⟨by decide, by decide⟩, by
    rw [C6_common_scripts_selection "post-fs-data"
        [⟨"10-fast", 8⟩, ⟨"subdir", 4⟩, ⟨"20-noexec", 8⟩]
        (fun n => n != "20-noexec") ⟨100, 0⟩ ⟨7, 9, fun _ => 42⟩ pfs_timeout0
        (by decide) (by decide)]
    rfl⟩

/-- C7: `exec_module_scripts` iterates the module list in the given order
and launches `<MODULEROOT>/<module>/<stage>.sh` exactly when that file
exists; absent scripts are skipped silently. -/
theorem C7_module_scripts_selection (stage : String) (mods : List String)
    (has_file : String → Bool) (now : timespec) (env : PfsEnv) (pt : timespec)
    (h1 : 0 ≤ env.fork1) (h2 : env.timer_fork ≠ 0) :
    launchedPaths (exec_module_scripts stage mods has_file now env pt)
      = (mods.filter fun m => has_file (module_path m stage)).map
          fun m => module_path m stage :=
  exec_module_scripts_launchedPaths stage mods has_file now env pt h1 h2

/-- C7 at a concrete input: of `[alpha, beta]` only alpha's script exists,
so only alpha's script is launched. -/
theorem C7_witness :
    ((0:Int) ≤ 7 ∧ (9:Int) ≠ 0)
    ∧ launchedPaths (exec_module_scripts "post-fs-data" ["alpha", "beta"]
        (fun p => p == module_path "alpha" "post-fs-data") ⟨100, 0⟩
        ⟨7, 9, fun _ => 42⟩ ⟨200, 0⟩)
      = ["/data/adb/modules/alpha/post-fs-data.sh"] :=
  ⟨⟨by decide, by decide⟩, by
    rw [C7_module_scripts_selection "post-fs-data" ["alpha", "beta"]
        (fun p => p == module_path "alpha" "post-fs-data") ⟨100, 0⟩
        ⟨7, 9, fun _ => 42⟩ ⟨200, 0⟩ (by decide) (by decide)]
    rfl⟩

/-- C8: when the stage directory cannot be opened, `exec_common_scripts`
returns with no launch and no error: the trace is empty and the static
`pfs_timeout` is left untouched. -/
theorem C8_missing_stage_dir_empty_run (stage : String) (x_ok : String → Bool)
    (now : timespec) (env : PfsEnv) (pt : timespec) :
    (exec_common_scripts stage none x_ok now env pt).events = []
    ∧ (exec_common_scripts stage none x_ok now env pt).pfs_timeout = pt :=
  ⟨rfl, rfl⟩

/-- C9: when the directory phase returns early on a missing stage
directory, the deadline is never stored (the static keeps its
zero-initialized value), so a later module phase of the timed stage finds
the deadline already passed (any positive monotonic timestamp) and runs
entirely non-blocking: no forks, no waits, all launches fire-and-forget. -/
theorem C9_missing_dir_zero_deadline_nonblocking (st : String) (x_ok : String → Bool)
    (now0 : timespec) (env0 : PfsEnv) (mods : List String) (has_file : String → Bool)
    (now : timespec) (env : PfsEnv)
    (hnow : timespec_gt now pfs_timeout0 = true) :
    (exec_common_scripts st none x_ok now0 env0 pfs_timeout0).pfs_timeout
      = pfs_timeout0
    ∧ hasForkEv (exec_module_scripts "post-fs-data" mods has_file now env pfs_timeout0)
      = false
    ∧ hasWait (exec_module_scripts "post-fs-data" mods has_file now env pfs_timeout0)
      = false
    ∧ allLaunches ForkPolicy.fork_dont_care
        (exec_module_scripts "post-fs-data" mods has_file now env pfs_timeout0)
      = true := by
  refine ⟨rfl, ?_, ?_, ?_⟩ <;>
    rw [exec_module_scripts_expired_eq mods has_file now env pfs_timeout0 hnow]
  · exact launch_map_hasForkEv _ _ _
  · exact launch_map_hasWait _ _ _
  · exact launch_map_allLaunches _ _ _

/-- C9 at a concrete input. -/
theorem C9_witness :
    timespec_gt ⟨100, 0⟩ pfs_timeout0 = true
    ∧ ((exec_common_scripts "post-fs-data" none (fun _ => true) ⟨5, 0⟩
          ⟨7, 9, fun _ => 42⟩ pfs_timeout0).pfs_timeout = pfs_timeout0
       ∧ hasForkEv (exec_module_scripts "post-fs-data" ["alpha"] (fun _ => true)
          ⟨100, 0⟩ ⟨7, 9, fun _ => 42⟩ pfs_timeout0) = false
       ∧ hasWait (exec_module_scripts "post-fs-data" ["alpha"] (fun _ => true)
          ⟨100, 0⟩ ⟨7, 9, fun _ => 42⟩ pfs_timeout0) = false
       ∧ allLaunches ForkPolicy.fork_dont_care
          (exec_module_scripts "post-fs-data" ["alpha"] (fun _ => true)
            ⟨100, 0⟩ ⟨7, 9, fun _ => 42⟩ pfs_timeout0) = true) :=
  ⟨by decide,
   C9_missing_dir_zero_deadline_nonblocking "post-fs-data" (fun _ => true) ⟨5, 0⟩
     ⟨7, 9, fun _ => 42⟩ ["alpha"] (fun _ => true) ⟨100, 0⟩ ⟨7, 9, fun _ => 42⟩
     (by decide)⟩

/-- C10: if the subtree-isolation fork of a timed-stage phase fails, the
phase returns at once with no script launched — the directory phase's
trace is just the failed fork, and the module phase (entered with the
deadline not yet passed, so it still runs the timed protocol) launches
nothing either. -/
theorem C10_subtree_fork_failure_skips_phase (entries : List dirent)
    (x_ok : String → Bool) (now : timespec) (env : PfsEnv) (pt : timespec)
    (mods : List String) (has_file : String → Bool) (now2 : timespec)
    (env2 : PfsEnv) (pt2 : timespec)
    (h : env.fork1 < 0) (h2 : env2.fork1 < 0)
    (h3 : timespec_gt now2 pt2 = false) :
    (exec_common_scripts "post-fs-data" (some entries) x_ok now env pt).events
      = [Event.forkSubtree env.fork1]
    ∧ launchedPaths (exec_module_scripts "post-fs-data" mods has_file now2 env2 pt2)
      = [] := by
  constructor
  · have hse : PFS_SETUP ("post-fs-data" == "post-fs-data") (-1) env
        = (SetupResult.ret, [Event.forkSubtree env.fork1]) := by
      rw [show ("post-fs-data" == "post-fs-data") = true from rfl]
      exact PFS_SETUP_fail env (-1) h
    exact exec_common_scripts_events_ret "post-fs-data" entries x_ok now env pt _ hse
  · by_cases hm : mods.isEmpty
    · have hnil : mods = [] := by simpa using hm
      subst hnil
      simp [exec_module_scripts, launchedPaths]
    · rw [Bool.not_eq_true] at hm
      have hp : module_pfs "post-fs-data" now2 pt2 = true := by
        rw [module_pfs_eval, h3]
        rfl
      have hse : PFS_SETUP (module_pfs "post-fs-data" now2 pt2) (-1) env2
          = (SetupResult.ret, [Event.forkSubtree env2.fork1]) := by
        rw [hp]
        exact PFS_SETUP_fail env2 (-1) h2
      rw [exec_module_scripts_events_ret "post-fs-data" mods has_file now2 env2 pt2
            _ hm hse]
      simp [launchedPaths]

/-- C10 at a concrete input. -/
theorem C10_witness :
    ((-3:Int) < 0 ∧ (-5:Int) < 0 ∧ timespec_gt ⟨10, 0⟩ ⟨50, 0⟩ = false)
    ∧ ((exec_common_scripts "post-fs-data" (some [⟨"10-fast", 8⟩]) (fun _ => true)
          ⟨100, 0⟩ ⟨-3, 9, fun _ => 42⟩ pfs_timeout0).events
        = [Event.forkSubtree (-3)]
       ∧ launchedPaths (exec_module_scripts "post-fs-data" ["alpha"] (fun _ => true)
          ⟨10, 0⟩ ⟨-5, 9, fun _ => 42⟩ ⟨50, 0⟩) = []) :=
  ⟨⟨by decide, by decide, by decide⟩,
   C10_subtree_fork_failure_skips_phase [⟨"10-fast", 8⟩] (fun _ => true) ⟨100, 0⟩
     ⟨-3, 9, fun _ => 42⟩ pfs_timeout0 ["alpha"] (fun _ => true) ⟨10, 0⟩
     ⟨-5, 9, fun _ => 42⟩ ⟨50, 0⟩ (by decide) (by decide) (by decide)⟩
